import Mathlib

/-!
# Verification of the minicel-rs formula engine

Shallow embedding of the minicel-rs repository (a tiny spreadsheet-style
formula language over CSV cells): the tokenizer (`src/tokenizer.rs`), the
recursive-descent parser (`src/parser.rs`), the AST leaf traversal
(`src/ast.rs`), the builtin registry (`src/builtins.rs`), the evaluation
engine (`src/engine.rs`) and the record-reconciliation helper
(`src/utils.rs`), together with theorems settling the specification's
claims about them.

Rust `panic!`/`expect`/out-of-bounds indexing is embedded as an explicit
`Res.panic` outcome, and the unbounded recursion of the engine is embedded
with an explicit fuel parameter (`Res.diverge` on exhaustion); every other
fallible path returns `Res.err` carrying the structured form of the
`format!` message the code builds.
-/

namespace Minicel

/-! ## Exact decimals (the `bigdecimal::BigDecimal` values used by the code)

`BigDecimal` is a big integer mantissa with a decimal scale; the value is
`mant / 10 ^ scale`.  The crate's scale is an `i64` that can only become
negative through exponent notation (`1e3`), which the repository's tokenizer
never produces, so the scale is embedded as `Nat`. -/

structure BigDec where
  mant : Int
  scale : Nat
deriving DecidableEq, Repr

/-- Addition of exact decimals: align the scales, add the mantissas
(`bigdecimal`'s `Add`). -/
def bdAdd (a b : BigDec) : BigDec :=
  let s := max a.scale b.scale
  ⟨a.mant * (10 : Int) ^ (s - a.scale) + b.mant * (10 : Int) ^ (s - b.scale), s⟩

/-- Subtraction of exact decimals (`bigdecimal`'s `Sub`). -/
def bdSub (a b : BigDec) : BigDec :=
  let s := max a.scale b.scale
  ⟨a.mant * (10 : Int) ^ (s - a.scale) - b.mant * (10 : Int) ^ (s - b.scale), s⟩

/-- Multiplication of exact decimals (`bigdecimal`'s `Mul`). -/
def bdMul (a b : BigDec) : BigDec :=
  ⟨a.mant * b.mant, a.scale + b.scale⟩

/-- Division of exact decimals with a nonzero divisor: `bigdecimal`'s `Div`
carries the long division to its default precision of 100 digits, stopping
early when the remainder vanishes.  It is embedded as the truncated quotient
at 100 extra fractional digits; no claim below inspects these digits, only
whether a result is produced at all (zero divisors panic in the crate and are
handled by the caller `div`, never reaching this function). -/
def bdDiv (a b : BigDec) : BigDec :=
  ⟨(a.mant * (10 : Int) ^ (b.scale + 100)) / b.mant, a.scale + 100⟩

/-- Rendering of an exact decimal (`bigdecimal`'s `Display`): the mantissa's
decimal digits with the decimal point inserted `scale` places from the right,
zero-padded as `0.0…d…` when the mantissa has at most `scale` digits. -/
def bdToString (d : BigDec) : String :=
  let s := toString d.mant.natAbs
  let sign := if d.mant < 0 then "-" else ""
  let body :=
    if d.scale = 0 then s
    else if d.scale < s.data.length then
      ⟨s.data.take (s.data.length - d.scale)⟩ ++ "." ++ ⟨s.data.drop (s.data.length - d.scale)⟩
    else "0." ++ ⟨List.replicate (d.scale - s.data.length) '0'⟩ ++ s
  sign ++ body

/-- Numeric value of a digit run (most significant first). -/
def natOfDigits (ds : List Char) : Nat :=
  ds.foldl (fun a c => a * 10 + (c.toNat - 48)) 0

/-- `num_bigint::BigInt::from_str`: an optional sign followed by at least one
decimal digit.  `"-"` and `""` fail. -/
def intFromStr? (cs : List Char) : Option Int :=
  let (neg, ds) :=
    match cs with
    | '-' :: r => (true, r)
    | '+' :: r => (false, r)
    | _ => (false, cs)
  if ds = [] ∨ ¬ ds.all Char.isDigit then none
  else some ((if neg then (-1 : Int) else 1) * (natOfDigits ds : Int))

/-- Split a character list at its first `'.'`, when one is present. -/
def splitFirstDot : List Char → Option (List Char × List Char)
  | [] => none
  | '.' :: rest => some ([], rest)
  | c :: rest => (splitFirstDot rest).map (fun p => (c :: p.1, p.2))

/-- `BigDecimal::from_str`: drop the first decimal point and remember how many
characters followed it as the scale, then parse the remaining characters as a
big integer (so a second `'.'` makes the integer parse fail).  Modelling note:
the crate additionally accepts exponent notation (`1e3`); the repository's
tokenizer never produces it and no claim depends on it. -/
def bdFromStr? (cs : List Char) : Option BigDec :=
  let (digits, scale) :=
    match splitFirstDot cs with
    | none => (cs, 0)
    | some (lead, trail) => (lead ++ trail, trail.length)
  (intFromStr? digits).map (fun m => ⟨m, scale⟩)

/-! ## Strings: Rust `str::trim` and `str::split(',')` -/

/-- Rust `str::trim` on the character list: drop whitespace from both ends. -/
def trimChars (s : List Char) : List Char :=
  (((s.dropWhile Char.isWhitespace).reverse).dropWhile Char.isWhitespace).reverse

/-- Rust `str::trim`. -/
def trimStr (s : String) : String :=
  ⟨trimChars s.data⟩

/-- Rust `str::split(',')`: split on every comma, keeping empty pieces
(`""` yields `[""]`). -/
def splitComma : List Char → List (List Char)
  | [] => [[]]
  | ',' :: rest => [] :: splitComma rest
  | c :: rest =>
    match splitComma rest with
    | [] => [[c]]
    | g :: gs => (c :: g) :: gs

/-- Rust `char::is_ascii_alphabetic`. -/
def isAsciiAlphabetic (c : Char) : Bool :=
  ('A' ≤ c ∧ c ≤ 'Z') ∨ ('a' ≤ c ∧ c ≤ 'z')

/-! ## Errors and outcomes

`src/errors.rs` defines `ErrorKind` (`Tokenizer`/`Parse`/`Engine`) and
`Error { kind, message, line_number }`.  Every `format!` message the code
builds is embedded as a structured constructor carrying the values the
message names. -/

/-- `errors::ErrorKind`. -/
inductive ErrorKind where
  | tokenizer
  | parse
  | engine
deriving DecidableEq, Repr

/-- The builtin functions' `Err(format!(..))` messages (`src/builtins.rs`). -/
inductive BuiltinMsg where
  /-- `"Expected 2 arguments, found {}"` -/
  | wrongArgCount (found : Nat)
  /-- `"Expected numbers found `{a2}` and `{a1}`"` (operands displayed in
  reversed order, exactly as the code formats them). -/
  | expectedNumbers (a2 a1 : String)
deriving DecidableEq, Repr

/-- `tokenizer::Token`. -/
inductive Token where
  | identifier (s : String)
  | string (s : String)
  | number (n : BigDec)
  | semicolon
  | leftParenthesis
  | rightParenthesis
  | leftBracket
  | rightBracket
deriving DecidableEq, Repr

/-- The messages of every `Error::new(kind, format!(..), line)` site. -/
inductive ErrorMsg where
  /-- tokenizer: `"String is not closed"` -/
  | stringNotClosed
  /-- tokenizer: `"Invalid float number"` -/
  | invalidFloatNumber
  /-- tokenizer: `"Invalid negative number"` -/
  | invalidNegativeNumber
  /-- tokenizer: `"Unknown character: {c}"` -/
  | unknownCharacter (c : Char)
  /-- parser: `"Expected identifier, found {token}"` / `"… found EOF"` -/
  | expectedIdentifier (found : Option Token)
  /-- parser: `"Invalid field identifier, row number starts from 1, found 0"` -/
  | fieldRowZero
  /-- parser: `"Invalid field identifier, expected a row number after the
  column `{col}` but found `{row}`"` -/
  | fieldRowNotNumber (col row : String)
  /-- parser: `"Expected right bracket, found EOF"` -/
  | expectedRightBracket
  /-- parser: `"Expected left bracket, found {token}"` / `"… found EOF"` -/
  | expectedLeftBracket (found : Option Token)
  /-- parser: `"Expected expression, found {token}"` / `"… found EOF"` -/
  | expectedExpression (found : Option Token)
  /-- parser: `"Expected right parenthesis, found EOF"` -/
  | expectedRightParenthesis
  /-- parser: `"Expected left parenthesis, found {token}"` / `"… found EOF"` -/
  | expectedLeftParenthesis (found : Option Token)
  /-- engine: `"Invalid row number {row}, the rows is {rows}"` -/
  | invalidRowNumber (row rows : Nat)
  /-- engine: `"CSV error: Record {row} has only {cols} columns, cannot get
  column {col}"` -/
  | csvCannotGetColumn (row cols col : Nat)
  /-- engine: `"CSV error: Record {row} has only {cols} columns, cannot
  update column {col_plus_one}"` -/
  | csvCannotUpdateColumn (row cols colPlusOne : Nat)
  /-- engine: `"Builtin function error: {error}"` -/
  | builtinError (error : BuiltinMsg)
  /-- engine: `"Unknown function {name}"` -/
  | unknownFunction (name : String)
deriving DecidableEq, Repr

/-- `errors::Error`. -/
structure Error where
  kind : ErrorKind
  message : ErrorMsg
  line_number : Nat
deriving DecidableEq, Repr

/-- Outcome of running a fallible piece of the code: `ok`/`err` embed
`Result`, `panic` embeds a Rust panic (a failed `expect`, an out-of-bounds
index, or `bigdecimal`'s division by zero), and `diverge` marks exhaustion
of the explicit fuel that bounds the code's unbounded recursion. -/
inductive Res (α : Type) where
  | ok (a : α)
  | err (e : Error)
  | panic
  | diverge
deriving Repr, DecidableEq

/-- `Result`'s `?`-propagation on `Res`. -/
def Res.bind {α β : Type} : Res α → (α → Res β) → Res β
  | .ok a, f => f a
  | .err e, _ => .err e
  | .panic, _ => .panic
  | .diverge, _ => .diverge

instance : Monad Res where
  pure := .ok
  bind := Res.bind

/-- `Res.isOk`. -/
def Res.isOk {α : Type} : Res α → Bool
  | .ok _ => true
  | _ => false

/-- `Res.isErr`. -/
def Res.isErr {α : Type} : Res α → Bool
  | .err _ => true
  | _ => false

/-! ## Tokenizer (`src/tokenizer.rs`) -/

/-- `tokenizer::read_string`: consume characters up to the closing `'"'`;
reaching end of input first is the `"String is not closed"` error.  Returns
the token with the unconsumed remainder of the character stream. -/
def read_string : List Char → List Char → Nat → Res Token × List Char
  | [], _, line_number => (.err ⟨.tokenizer, .stringNotClosed, line_number⟩, [])
  | c :: rest, acc, line_number =>
    if c = '"' then (.ok (.string ⟨acc⟩), rest)
    else read_string rest (acc ++ [c]) line_number

/-- `tokenizer::read_number`'s peek loop: accumulate digits, at most one
`'.'` (a second is `"Invalid float number"`), a `'-'` only as the very first
character (`"Invalid negative number"` otherwise); any other character stops
the loop.  The accumulated text is then parsed with
`BigDecimal::from_str(..).expect("is a number")` — a failing parse panics. -/
def read_number_go (cs number : List Char) (is_float is_negative : Bool)
    (line_number : Nat) : Res Token × List Char :=
  match cs with
  | c :: rest =>
    if c.isDigit then read_number_go rest (number ++ [c]) is_float is_negative line_number
    else if c = '.' then
      if is_float then (.err ⟨.tokenizer, .invalidFloatNumber, line_number⟩, cs)
      else read_number_go rest (number ++ [c]) true is_negative line_number
    else if c = '-' then
      if is_negative ∨ number ≠ [] then
        (.err ⟨.tokenizer, .invalidNegativeNumber, line_number⟩, cs)
      else read_number_go rest (number ++ [c]) is_float true line_number
    else
      (match bdFromStr? number with
       | some n => (.ok (.number n), cs)
       | none => (.panic, cs))
  | [] =>
    (match bdFromStr? number with
     | some n => (.ok (.number n), [])
     | none => (.panic, []))

/-- `tokenizer::read_number` (entered with the first digit or `'-'` still
unconsumed, exactly as the peeking Rust loop sees it). -/
def read_number (cs : List Char) (line_number : Nat) : Res Token × List Char :=
  read_number_go cs [] false false line_number

/-- `tokenizer::read_identifier`: greedily accumulate letters, digits and
`'_'`. -/
def read_identifier : List Char → List Char → Token × List Char
  | [], acc => (.identifier ⟨acc⟩, [])
  | c :: rest, acc =>
    if c = '_' ∨ c.isDigit ∨ isAsciiAlphabetic c then read_identifier rest (acc ++ [c])
    else (.identifier ⟨acc⟩, c :: rest)

/-- The character-dispatch loop of `tokenizer::tokenize`.  Each loop
iteration consumes at least one character, so the fuel `cs.length + 1`
supplied by `tokenize` can never run out. -/
def tokenize_go : Nat → List Char → Nat → Res (List Token)
  | 0, _, _ => .diverge
  | _ + 1, [], _ => .ok []
  | fuel + 1, c :: rest, line_number =>
    if c = ';' then (tokenize_go fuel rest line_number).bind (fun ts => .ok (.semicolon :: ts))
    else if c = '(' then
      (tokenize_go fuel rest line_number).bind (fun ts => .ok (.leftParenthesis :: ts))
    else if c = ')' then
      (tokenize_go fuel rest line_number).bind (fun ts => .ok (.rightParenthesis :: ts))
    else if c = '[' then
      (tokenize_go fuel rest line_number).bind (fun ts => .ok (.leftBracket :: ts))
    else if c = ']' then
      (tokenize_go fuel rest line_number).bind (fun ts => .ok (.rightBracket :: ts))
    else if c = '"' then
      match read_string rest [] line_number with
      | (.ok t, rest') => (tokenize_go fuel rest' line_number).bind (fun ts => .ok (t :: ts))
      | (.err e, _) => .err e
      | (.panic, _) => .panic
      | (.diverge, _) => .diverge
    else if c.isDigit ∨ c = '-' then
      match read_number (c :: rest) line_number with
      | (.ok t, rest') => (tokenize_go fuel rest' line_number).bind (fun ts => .ok (t :: ts))
      | (.err e, _) => .err e
      | (.panic, _) => .panic
      | (.diverge, _) => .diverge
    else if c = '_' ∨ isAsciiAlphabetic c then
      match read_identifier (c :: rest) [] with
      | (t, rest') => (tokenize_go fuel rest' line_number).bind (fun ts => .ok (t :: ts))
    else if c.isWhitespace then tokenize_go fuel rest line_number
    else .err ⟨.tokenizer, .unknownCharacter c, line_number⟩

/-- `tokenizer::tokenize`. -/
def tokenize (field : String) (line_number : Nat) : Res (List Token) :=
  tokenize_go (field.data.length + 1) field.data line_number

/-! ## AST (`src/ast.rs`) -/

/-- `ast::Expression`.  The `FunctionCall` variant's
`FunctionCallExpression { name, arguments, line_number }` payload is inlined
into the constructor. -/
inductive Expression where
  | functionCall (name : String) (arguments : List Expression) (line_number : Nat)
  | field (col : String) (row : Nat) (value : String)
  | number (n : BigDec)
  | string (s : String)
  | boolean (b : Bool)
  | array (elements : List Expression)
deriving Repr

/-- `ast::Ast`: the wrapped top-level `FunctionCallExpression`, flattened
into its three fields. -/
structure Ast where
  name : String
  arguments : List Expression
  line_number : Nat
deriving Repr

/-- `builtins::is_builtin`. -/
def is_builtin (name : String) : Bool :=
  name = "print" ∨ name = "sum" ∨ name = "sub" ∨ name = "mul" ∨ name = "div"

mutual

/-- `ast::Expression::fmt` (the `Display` impl): function calls render their
name (tagged builtin or not) and comma-space-joined arguments, fields render
their cached `value`, literals render directly, arrays render bracketed. -/
def expr_to_string : Expression → String
  | .functionCall name arguments _ =>
    (if is_builtin name then "builtin function: " ++ name else "function: " ++ name)
      ++ "(" ++ exprs_join arguments ++ ")"
  | .field _ _ value => value
  | .number n => bdToString n
  | .string s => s
  | .boolean b => if b then "true" else "false"
  | .array elements => "[" ++ exprs_join elements ++ "]"

/-- The `", "`-separated rendering loop shared by the `FunctionCall` and
`Array` arms of the `Display` impl. -/
def exprs_join : List Expression → String
  | [] => ""
  | [e] => expr_to_string e
  | e :: rest => expr_to_string e ++ ", " ++ exprs_join rest

end

mutual

/-- `ast::Expression::mut_children`: a function call contributes the leaves
of its arguments (never itself), an array contributes the leaves of its
elements, and any other node is itself a leaf.  The Rust method returns
mutable references; the embedding returns the leaf values in the same
left-to-right order. -/
def Expression.mut_children : Expression → List Expression
  | .functionCall _ arguments _ => mut_children_list arguments
  | .array elements => mut_children_list elements
  | c => [c]

/-- The `children.extend(argument.mut_children())` accumulation loop. -/
def mut_children_list : List Expression → List Expression
  | [] => []
  | e :: rest => Expression.mut_children e ++ mut_children_list rest

end

/-- `ast::Ast::mut_children`: the leaves of the root call's arguments. -/
def Ast.mut_children (a : Ast) : List Expression :=
  mut_children_list a.arguments

/-! ## Utils (`src/utils.rs`) -/

/-- `utils::col_number_from_alpha`: `col = col * 26 + (c as u8 - b'A') + 1`
over the characters, then `col - 1`.  The `u8` subtraction is `c - 65`
(well-defined for the ASCII-alphabetic labels the parser produces); note it
uses `b'A'` for lowercase letters too. -/
def col_number_from_alpha (alpha : String) : Nat :=
  (alpha.data.foldl (fun col c => col * 26 + (c.toNat - 65) + 1) 0) - 1

/-- `utils::compare_records`: zip the static record with the new record and
then with the old record, and map the per-field merge over the triples.  The
closure destructures the pairs as `((static_field, old_field), new_filed)`
even though the zip order produced `((static, new), old)` — the embedding
reproduces the bindings exactly as the source writes them. -/
def compare_records (static_record old_record new_record : List String) :
    List String :=
  ((static_record.zip new_record).zip old_record).map
    (fun p =>
      let static_field := trimStr p.1.1
      let old_field := trimStr p.1.2
      let new_filed := trimStr p.2
      if new_filed = static_field ∧ new_filed ≠ old_field then old_field
      else new_filed)

/-- `utils::parse_string_to_expression`: a string that parses as a
`BigDecimal` becomes a `Number`, anything else stays a `String`. -/
def parse_string_to_expression (string : String) : Expression :=
  match bdFromStr? string.data with
  | some number => .number number
  | none => .string string

/-! ## Parser (`src/parser.rs`)

The Rust parser holds a multi-peek iterator over the token slice and the
cell's line number; the embedding holds the not-yet-consumed token list.
The recursive descent is bounded by explicit fuel (every recursive call
consumes at least one token, so any fuel above the token count is enough;
no claim depends on the exhaustion branch). -/

/-- `parser::Parser`'s state. -/
structure ParserSt where
  tokens : List Token
  line_number : Nat
deriving Repr

/-- Rust `u64::from_str`: an optional `'+'` followed by at least one decimal
digit, rejecting values above `u64::MAX`. -/
def u64_from_str? (cs : List Char) : Option Nat :=
  let ds := match cs with | '+' :: r => r | r => r
  if ds = [] ∨ ¬ ds.all Char.isDigit then none
  else
    let v := natOfDigits ds
    if v < 2 ^ 64 then some v else none

/-- `parser::Parser::parse_identifier`: peek an `Identifier` token and
consume it; any other token, or end of input, is a Parse error. -/
def parse_identifier (p : ParserSt) : Res (String × ParserSt) :=
  match p.tokens with
  | Token.identifier identifier :: rest =>
    .ok (identifier, ⟨rest, p.line_number⟩)
  | t :: _ => .err ⟨.parse, .expectedIdentifier (some t), p.line_number⟩
  | [] => .err ⟨.parse, .expectedIdentifier none, p.line_number⟩

/-- `parser::Parser::parse_field`: take the identifier, split it into the
leading run of ASCII-alphabetic characters (`take_while`, the column) and
everything after that run (`skip_while`, the row text); the row text must
parse as a `u64` and must not be zero. -/
def parse_field (p : ParserSt) : Res (Expression × ParserSt) :=
  (parse_identifier p).bind (fun r =>
    let identifier := r.1
    let p' := r.2
    let col : String := ⟨identifier.data.takeWhile (fun c => isAsciiAlphabetic c)⟩
    let row : String := ⟨identifier.data.dropWhile (fun c => isAsciiAlphabetic c)⟩
    match u64_from_str? row.data with
    | some rowNum =>
      if rowNum = 0 then .err ⟨.parse, .fieldRowZero, p'.line_number⟩
      else .ok (.field col rowNum "", p')
    | none => .err ⟨.parse, .fieldRowNotNumber col row, p'.line_number⟩)

mutual

/-- `parser::Parser::parse_expression`: dispatch on the peeked token — an
identifier followed by `(` is a function call, `true`/`false` is a boolean,
any other identifier is a field; numbers and strings map directly; `[`
starts an array; anything else (or EOF) is a Parse error. -/
def parse_expression : Nat → ParserSt → Res (Expression × ParserSt)
  | 0, _ => .diverge
  | fuel + 1, p =>
    match p.tokens with
    | [] => .err ⟨.parse, .expectedExpression none, p.line_number⟩
    | t :: rest =>
      match t with
      | .identifier ident =>
        if rest.head? = some Token.leftParenthesis then parse_function_call fuel p
        else if ident = "true" ∨ ident = "false" then
          .ok (.boolean (ident = "true"), ⟨rest, p.line_number⟩)
        else parse_field p
      | .number n => .ok (.number n, ⟨rest, p.line_number⟩)
      | .string s => .ok (.string s, ⟨rest, p.line_number⟩)
      | .leftBracket => parse_array fuel p
      | _ => .err ⟨.parse, .expectedExpression (some t), p.line_number⟩

/-- `parser::Parser::parse_array`: consume `[`, then loop. -/
def parse_array : Nat → ParserSt → Res (Expression × ParserSt)
  | 0, _ => .diverge
  | fuel + 1, p =>
    match p.tokens with
    | Token.leftBracket :: rest => parse_array_loop fuel ⟨rest, p.line_number⟩ []
    | t :: _ => .err ⟨.parse, .expectedLeftBracket (some t), p.line_number⟩
    | [] => .err ⟨.parse, .expectedLeftBracket none, p.line_number⟩

/-- `parse_array`'s element loop: `]` closes the array, `;` is consumed and
ignored, anything else is parsed as an element; EOF first is a Parse
error. -/
def parse_array_loop : Nat → ParserSt → List Expression → Res (Expression × ParserSt)
  | 0, _, _ => .diverge
  | fuel + 1, p, array =>
    match p.tokens with
    | [] => .err ⟨.parse, .expectedRightBracket, p.line_number⟩
    | Token.rightBracket :: rest => .ok (.array array, ⟨rest, p.line_number⟩)
    | Token.semicolon :: rest => parse_array_loop fuel ⟨rest, p.line_number⟩ array
    | _ =>
      (parse_expression fuel p).bind (fun r =>
        parse_array_loop fuel r.2 (array ++ [r.1]))

/-- `parser::Parser::parse_arguments`: consume `(`, then loop. -/
def parse_arguments : Nat → ParserSt → Res (List Expression × ParserSt)
  | 0, _ => .diverge
  | fuel + 1, p =>
    match p.tokens with
    | Token.leftParenthesis :: rest => parse_arguments_loop fuel ⟨rest, p.line_number⟩ []
    | t :: _ => .err ⟨.parse, .expectedLeftParenthesis (some t), p.line_number⟩
    | [] => .err ⟨.parse, .expectedLeftParenthesis none, p.line_number⟩

/-- `parse_arguments`' element loop: `)` returns the arguments, `;` is
consumed and ignored, anything else is parsed as an expression; EOF first is
a Parse error. -/
def parse_arguments_loop : Nat → ParserSt → List Expression → Res (List Expression × ParserSt)
  | 0, _, _ => .diverge
  | fuel + 1, p, arguments =>
    match p.tokens with
    | [] => .err ⟨.parse, .expectedRightParenthesis, p.line_number⟩
    | Token.rightParenthesis :: rest => .ok (arguments, ⟨rest, p.line_number⟩)
    | Token.semicolon :: rest => parse_arguments_loop fuel ⟨rest, p.line_number⟩ arguments
    | _ =>
      (parse_expression fuel p).bind (fun r =>
        parse_arguments_loop fuel r.2 (arguments ++ [r.1]))

/-- `parser::Parser::parse_function_call`: an identifier followed by its
parenthesised arguments. -/
def parse_function_call : Nat → ParserSt → Res (Expression × ParserSt)
  | 0, _ => .diverge
  | fuel + 1, p =>
    (parse_identifier p).bind (fun r =>
      (parse_arguments fuel r.2).bind (fun r' =>
        .ok (.functionCall r.1 r'.1 r'.2.line_number, r'.2)))

end

/-- `parser::Parser::parse`: parse the top-level function call and wrap it in
an `Ast`; the `.expect("parse_function_call always returns a function
call")` is embedded as a panic on any other expression (unreachable). -/
def parse (fuel : Nat) (p : ParserSt) : Res (Ast × ParserSt) :=
  (parse_function_call fuel p).bind (fun r =>
    match r.1 with
    | .functionCall name arguments line_number => .ok (⟨name, arguments, line_number⟩, r.2)
    | _ => .panic)

/-! ## Builtins (`src/builtins.rs`) -/

/-- `builtins::FunctionResult` (`Result<String, String>`), extended with the
panic outcome that `bigdecimal`'s division by zero raises inside `div`. -/
inductive BRes where
  | ok (s : String)
  | err (e : BuiltinMsg)
  | panic
deriving DecidableEq, Repr

/-- The `", "`-join used by `builtins::print`. -/
def join_comma_space : List String → String
  | [] => ""
  | [s] => s
  | s :: rest => s ++ ", " ++ join_comma_space rest

/-- `builtins::print`: the comma-space-joined textual forms of the
arguments. -/
def print (args : List Expression) : BRes :=
  .ok (join_comma_space (args.map expr_to_string))

/-- `builtins::sum`: exactly two arguments, both `Number`, else an error
(whose message displays the operands in reversed order, as the code
does). -/
def sum (args : List Expression) : BRes :=
  match args with
  | [Expression.number n1, Expression.number n2] => .ok (bdToString (bdAdd n1 n2))
  | [a1, a2] => .err (.expectedNumbers (expr_to_string a2) (expr_to_string a1))
  | _ => .err (.wrongArgCount args.length)

/-- `builtins::sub`. -/
def sub (args : List Expression) : BRes :=
  match args with
  | [Expression.number n1, Expression.number n2] => .ok (bdToString (bdSub n1 n2))
  | [a1, a2] => .err (.expectedNumbers (expr_to_string a2) (expr_to_string a1))
  | _ => .err (.wrongArgCount args.length)

/-- `builtins::mul`. -/
def mul (args : List Expression) : BRes :=
  match args with
  | [Expression.number n1, Expression.number n2] => .ok (bdToString (bdMul n1 n2))
  | [a1, a2] => .err (.expectedNumbers (expr_to_string a2) (expr_to_string a1))
  | _ => .err (.wrongArgCount args.length)

/-- `builtins::div`: identical guards to the other arithmetic builtins and
no guard at all for a zero divisor — `n1 / n2` with `n2 == 0` panics inside
`bigdecimal` (`"Division by zero"`). -/
def div (args : List Expression) : BRes :=
  match args with
  | [Expression.number n1, Expression.number n2] =>
    if n2.mant = 0 then .panic else .ok (bdToString (bdDiv n1 n2))
  | [a1, a2] => .err (.expectedNumbers (expr_to_string a2) (expr_to_string a1))
  | _ => .err (.wrongArgCount args.length)

/-- `builtins::call_builtin`: dispatch by name over the registered builtins
(`print`, `sum`, `sub`, `mul`, `div`); `none` for an unknown name. -/
def call_builtin (name : String) (args : List Expression) : Option BRes :=
  if name = "print" then some (print args)
  else if name = "sum" then some (sum args)
  else if name = "sub" then some (sub args)
  else if name = "mul" then some (mul args)
  else if name = "div" then some (div args)
  else none

/-! ## Engine (`src/engine.rs`)

The engine state: the raw CSV lines, the 1-based row count set at
construction to `lines.count() - 1` (the header is excluded), and the
pending `updated_records` list of `(row, record snapshot)` pairs.  The
output file path plays no role in the embedded operations. -/

/-- `engine::Engine`'s state. -/
structure EngineSt where
  lines : List String
  rows : Nat
  updated_records : List (Nat × List String)
deriving Repr, DecidableEq

/-- `self.updated_records.iter().find(|f| f.0 == row)`. -/
def find_record : List (Nat × List String) → Nat → Option (List String)
  | [], _ => none
  | p :: ps, row => if p.1 = row then some p.2 else find_record ps row

/-- `position(|(r, _)| r == &row)` followed by `remove(old_idx)`: the first
entry for `row` (when present) together with the list with that entry
removed. -/
def remove_record : List (Nat × List String) → Nat →
    Option (List String) × List (Nat × List String)
  | [], _ => (none, [])
  | p :: ps, row =>
    if p.1 = row then (some p.2, ps)
    else
      match remove_record ps row with
      | (o, rest) => (o, p :: rest)

/-- `engine::Engine::get_record`: a row index above `self.rows` is the
`"Invalid row number"` Engine error (carried at line `row + 1`); otherwise
the line is split on `','` with each field trimmed.  The `.unwrap()` on
`lines.get(row)` is a panic when the index is somehow out of the line list
(unreachable for states built as `Engine::new` builds them). -/
def get_record (st : EngineSt) (row : Nat) : Res (List String) :=
  if st.rows < row then .err ⟨.engine, .invalidRowNumber row st.rows, row + 1⟩
  else
    match st.lines.get? row with
    | some l => .ok ((splitComma l.data).map (fun cs => trimStr ⟨cs⟩))
    | none => .panic

/-- Rust `field.starts_with('=')`. -/
def starts_with_eq (s : String) : Bool :=
  match s.data with
  | '=' :: _ => true
  | _ => false

mutual

/-- `engine::Engine::execute_field`: a field that does not start with `'='`
is returned as-is; otherwise strip every leading `'='` and trim
(`trim_start_matches('=').trim()`), tokenize, parse, resolve the leaves
returned by `ast.mut_children()` in place, and invoke the root call.  The
parser fuel `tokens.length + 1` never exhausts (the descent consumes at
least one token per recursive step). -/
def execute_field : Nat → EngineSt → String → Nat → Res String
  | fuel, st, field, line_number =>
    if starts_with_eq field then
      match fuel with
      | 0 => .diverge
      | fuel' + 1 =>
        (tokenize (trimStr ⟨field.data.dropWhile (fun c => c = '=')⟩) line_number).bind
          (fun tokens =>
            (parse (tokens.length + 1) ⟨tokens, line_number⟩).bind (fun r =>
              (resolve_list fuel' st line_number r.1.arguments).bind (fun args' =>
                function_call fuel' st r.1.name args' r.1.line_number)))
    else .ok field

/-- The per-leaf resolution loop of `execute_field` over
`ast.mut_children()`, written as the equivalent traversal: descend through
function-call arguments and array elements (exactly where `mut_children`
descends), replace every `Field` leaf by `parse_string_to_expression` of the
looked-up cell, and keep the other leaves.  The loop's `FunctionCall` and
`Array` leaf branches are dead code — `mut_children` never returns such a
node, as the leaf-shape lemmas below establish. -/
def resolve_expr : Nat → EngineSt → Nat → Expression → Res Expression
  | 0, _, _, _ => .diverge
  | fuel + 1, st, line_number, expr =>
    match expr with
    | .functionCall n args l =>
      (resolve_list fuel st line_number args).bind (fun args' =>
        .ok (.functionCall n args' l))
    | .array elements =>
      (resolve_list fuel st line_number elements).bind (fun es' =>
        .ok (.array es'))
    | .field col row _ =>
      (get_field fuel st (col_number_from_alpha col) row line_number).bind
        (fun value => .ok (parse_string_to_expression value))
    | e => .ok e

/-- Left-to-right resolution of a list of expressions (the order in which
the `mut_children` loop visits leaves); the first error aborts. -/
def resolve_list : Nat → EngineSt → Nat → List Expression → Res (List Expression)
  | 0, _, _, _ => .diverge
  | _ + 1, _, _, [] => .ok []
  | fuel + 1, st, line_number, e :: rest =>
    (resolve_expr fuel st line_number e).bind (fun e' =>
      (resolve_list fuel st line_number rest).bind (fun rest' =>
        .ok (e' :: rest')))

/-- `engine::Engine::get_field`: a row with a pending update answers from
its snapshot, with the bounds guard `updated.len() < col` (so a `col` equal
to the length passes the guard and the `updated_field.1[col]` index
panics); otherwise the static record is fetched, guarded the same way
(`record.len() < col`, same off-by-one), and the cell's raw text is
recursively executed at line `row + 1`. -/
def get_field : Nat → EngineSt → Nat → Nat → Nat → Res String
  | 0, _, _, _, _ => .diverge
  | fuel + 1, st, col, row, line_number =>
    match find_record st.updated_records row with
    | some updated =>
      if updated.length < col then
        .err ⟨.engine, .csvCannotGetColumn row updated.length col, line_number⟩
      else
        match updated.get? col with
        | some v => .ok v
        | none => .panic
    | none =>
      let field_line_number := row + 1
      (get_record st row).bind (fun record =>
        if record.length < col then
          .err ⟨.engine, .csvCannotGetColumn row record.length col, field_line_number⟩
        else
          match record.get? col with
          | some raw => execute_field fuel st (trimStr raw) field_line_number
          | none => .panic)

/-- `engine::Engine::function_call`: first replace every argument that is
itself a function call by its recursively computed value (reparsed as
number-or-string), then dispatch to the builtin registry; a builtin error is
wrapped as an Engine error, an unregistered name is the `"Unknown
function"` Engine error. -/
def function_call : Nat → EngineSt → String → List Expression → Nat → Res String
  | 0, _, _, _, _ => .diverge
  | fuel + 1, st, name, arguments, line_number =>
    (eval_args fuel st arguments).bind (fun args' =>
      match call_builtin name args' with
      | some (.ok value) => .ok value
      | some (.err error) => .err ⟨.engine, .builtinError error, line_number⟩
      | some .panic => .panic
      | none => .err ⟨.engine, .unknownFunction name, line_number⟩)

/-- The argument loop of `function_call`: arguments that are function calls
are evaluated and replaced via `parse_string_to_expression`; all others pass
through unchanged. -/
def eval_args : Nat → EngineSt → List Expression → Res (List Expression)
  | 0, _, _ => .diverge
  | _ + 1, _, [] => .ok []
  | fuel + 1, st, arg :: rest =>
    match arg with
    | .functionCall n args l =>
      (function_call fuel st n args l).bind (fun value =>
        (eval_args fuel st rest).bind (fun rest' =>
          .ok (parse_string_to_expression value :: rest')))
    | e =>
      (eval_args fuel st rest).bind (fun rest' => .ok (e :: rest'))

end

/-- `engine::Engine::update_field`: fetch the static record (erroring when
`col` is out of range, this time with a `<=`-correct guard
`static_record.len() <= col`), overwrite column `col` with the value, and
either merge with the prior pending snapshot through `compare_records`
(re-appending the merged snapshot at the end, as `remove` + `push` do) or
store the candidate directly on first touch. -/
def update_field (st : EngineSt) (col row : Nat) (value : String)
    (line_number : Nat) : Res EngineSt :=
  (get_record st row).bind (fun static_record =>
    if static_record.length ≤ col then
      .err ⟨.engine, .csvCannotUpdateColumn row static_record.length (col + 1), line_number⟩
    else
      let new_record := static_record.set col value
      match remove_record st.updated_records row with
      | (some old_record, rest) =>
        .ok { st with
              updated_records :=
                rest ++ [(row, compare_records static_record old_record new_record)] }
      | (none, _) =>
        .ok { st with updated_records := st.updated_records ++ [(row, new_record)] })

/-! ## Spec-side definitions and helper predicates -/

/-- The reconciliation rule as the spec (§4.4.1) and `compare_records`' own
doc comment state it: for each column compare the trimmed static, old and
new fields; when the new field equals the static one and differs from the
old one keep the old field, otherwise keep the new field.  The binding of
`new_field`/`old_field` here follows the zip order (`((static, new), old)`),
unlike the source's closure. -/
def compare_records_spec (static_record old_record new_record : List String) :
    List String :=
  ((static_record.zip new_record).zip old_record).map
    (fun p =>
      let static_field := trimStr p.1.1
      let new_field := trimStr p.1.2
      let old_field := trimStr p.2
      if new_field = static_field ∧ new_field ≠ old_field then old_field
      else new_field)

/-- The worth of one letter per the claim's reading of the column grammar:
each letter is worth `1..26`, upper or lower case. -/
def letter_worth (c : Char) : Nat :=
  if c ≤ 'Z' then c.toNat - 64 else c.toNat - 96

/-- The column index per the claim's words: the label's base-26 value (each
letter worth `1..26`) minus one. -/
def alpha_index_spec (alpha : String) : Nat :=
  (alpha.data.foldl (fun v c => v * 26 + letter_worth c) 0) - 1

/-- The leaf shapes `mut_children` is claimed to produce: `Field`, `Number`,
`String` or `Boolean` — never `FunctionCall` or `Array`. -/
def is_resolvable_leaf : Expression → Bool
  | .functionCall _ _ _ => false
  | .array _ => false
  | _ => true

/-- `BRes.isOk`. -/
def BRes.isOk : BRes → Bool
  | .ok _ => true
  | _ => false

/-- `BRes.isErr`. -/
def BRes.isErr : BRes → Bool
  | .err _ => true
  | _ => false

/-! ## Helper lemmas -/

/-- Two folds agree when their step functions agree on the list's
elements. -/
theorem foldl_congr_mem {α β : Type} (f g : β → α → β) :
    ∀ (l : List α), (∀ b a, a ∈ l → f b a = g b a) →
      ∀ b, l.foldl f b = l.foldl g b := by
  intro l
  induction l with
  | nil => intro _ b; rfl
  | cons x xs ih =>
    intro h b
    simp only [List.foldl_cons]
    rw [h b x (List.mem_cons_self x xs)]
    exact ih (fun b a ha => h b a (List.mem_cons_of_mem x ha)) _

/-- The per-index view of `compare_records`, with the per-field merge
written out after undoing the closure's swapped bindings: the merged field
is the trimmed new field when the trimmed old field equals the static one
and differs from the new one, and the trimmed old field in every other
case. -/
theorem compare_records_get?_of :
    ∀ (S O N : List String) (j : Nat) (s o n : String),
      S.get? j = some s → O.get? j = some o → N.get? j = some n →
      (compare_records S O N).get? j =
        some (if trimStr o = trimStr s ∧ trimStr o ≠ trimStr n then trimStr n
              else trimStr o)
  | [], _, _, j, _, _, _, hs, _, _ => by simp at hs
  | _ :: _, [], _, j, _, _, _, _, ho, _ => by simp at ho
  | _ :: _, _ :: _, [], j, _, _, _, _, _, hn => by simp at hn
  | s' :: S, o' :: O, n' :: N, 0, s, o, n, hs, ho, hn => by
    simp only [List.get?] at hs ho hn
    cases hs; cases ho; cases hn
    simp [compare_records]
  | s' :: S, o' :: O, n' :: N, j + 1, s, o, n, hs, ho, hn => by
    simp only [List.get?] at hs ho hn
    have := compare_records_get?_of S O N j s o n hs ho hn
    simpa [compare_records] using this

/-! ## Claim theorems -/

/-- C1 (code bug): the merge performed by `compare_records` does not compute
what the specification and the function's own doc comment state.  The
closure destructures the zipped triples against the wrong order, so with
static `["a"]`, old pending `["b"]` and candidate `["c"]` (the shape
`update_field` produces when a pending column is recomputed to a fresh
value) the code keeps the old `"b"` while the documented rule — new field
differing from both static and old is kept — demands the fresh `"c"`. -/
theorem compare_records_keeps_stale_value :
    compare_records ["a"] ["b"] ["c"] = ["b"] ∧
    compare_records_spec ["a"] ["b"] ["c"] = ["c"] ∧
    compare_records ["a"] ["b"] ["c"] ≠ compare_records_spec ["a"] ["b"] ["c"] := by
  refine ⟨?_, ?_, ?_⟩ <;> decide

/-- C2 (code bug): `get_field` validates columns with `len < col` instead of
`len <= col`, so a column index exactly equal to the record's length passes
the guard and the subsequent index panics instead of producing the claimed
Engine error.  On the sheet `["h", "a"]` (header plus a one-column row):
requesting column 1 of row 1 panics, both against the static record and
against a pending snapshot of width one; column 2 and an out-of-range row
are correctly reported as Engine errors naming the record/column count and
the invalid row. -/
theorem get_field_len_guard_off_by_one :
    get_field 1 ⟨["h", "a"], 1, []⟩ 1 1 2 = Res.panic ∧
    get_field 1 ⟨["h", "a"], 1, [(1, ["x"])]⟩ 1 1 7 = Res.panic ∧
    get_field 1 ⟨["h", "a"], 1, []⟩ 2 1 2 =
      Res.err ⟨.engine, .csvCannotGetColumn 1 1 2, 2⟩ ∧
    get_field 1 ⟨["h", "a"], 1, []⟩ 0 5 2 =
      Res.err ⟨.engine, .invalidRowNumber 5 1, 6⟩ := by
  refine ⟨?_, ?_, ?_, ?_⟩ <;> (simp only [get_field.eq_def]; try decide)

/-- C5 (code bug): the number reader is not total over the stated error
modes.  Entered on a `'-'` that no digit follows, it accumulates exactly
`"-"` (or `"-."`), which `BigDecimal::from_str` rejects, so the
`.expect("is a number")` panics instead of returning a token or a Tokenizer
error; a digit-containing accumulation such as `"-5"` parses fine. -/
theorem tokenize_minus_panics :
    tokenize "-" 1 = Res.panic ∧
    tokenize "-." 1 = Res.panic ∧
    tokenize "-5" 1 = Res.ok [Token.number ⟨-5, 0⟩] := by
  refine ⟨?_, ?_, ?_⟩ <;> decide

/-- C4 counterexample: the field grammar admits lowercase labels, but
`col_number_from_alpha` subtracts `b'A'` from every letter, so `"a"` maps to
`32` — not the `0` the claim's each-letter-worth-1-to-26 reading demands. -/
theorem col_number_from_alpha_lowercase_cex :
    col_number_from_alpha "a" = 32 ∧
    alpha_index_spec "a" = 0 ∧
    col_number_from_alpha "a" ≠ alpha_index_spec "a" := by
  refine ⟨?_, ?_, ?_⟩ <;> decide

/-- C4 (amended): restricted to non-empty labels of uppercase ASCII letters,
`col_number_from_alpha` is the label's base-26 value (each letter worth
`1..26`) minus one; in particular `"A" ↦ 0`, `"Z" ↦ 25`, `"AA" ↦ 26`. -/
theorem col_number_from_alpha_uppercase (alpha : String)
    (_hne : alpha.data ≠ [])
    (hup : ∀ c ∈ alpha.data, 'A' ≤ c ∧ c ≤ 'Z') :
    col_number_from_alpha alpha = alpha_index_spec alpha ∧
    col_number_from_alpha "A" = 0 ∧
    col_number_from_alpha "Z" = 25 ∧
    col_number_from_alpha "AA" = 26 := by
  refine ⟨?_, by decide, by decide, by decide⟩
  unfold col_number_from_alpha alpha_index_spec
  have h := foldl_congr_mem
    (fun col c => col * 26 + (c.toNat - 65) + 1)
    (fun v c => v * 26 + letter_worth c)
    alpha.data
    (fun b c hc => by
      have hA : (65 : Nat) ≤ c.toNat := by
        have := (hup c hc).1
        simpa [Char.le_def, Char.toNat] using this
      have hZ : c ≤ 'Z' := (hup c hc).2
      simp only [letter_worth, if_pos hZ]
      omega)
    0
  rw [h]

/-- C4 witness: the amended theorem at the concrete label `"AB"`. -/
theorem col_number_from_alpha_uppercase_witness :
    col_number_from_alpha "AB" = alpha_index_spec "AB" ∧
    col_number_from_alpha "A" = 0 ∧
    col_number_from_alpha "Z" = 25 ∧
    col_number_from_alpha "AA" = 26 :=
  col_number_from_alpha_uppercase "AB" (by decide) (by decide)

/-- C3 counterexample: a pending value carrying surrounding whitespace is
not preserved verbatim by an update to another column — the merge trims it.
Here row 1's snapshot holds `" V "` in column 1 (a previously computed,
non-static value); updating column 0 to `"X"` leaves column 1 holding `"V"`,
not its prior pending value `" V "`. -/
theorem update_field_trims_pending_cex :
    update_field ⟨["h", "a,b"], 1, [(1, ["a", " V "])]⟩ 0 1 "X" 2 =
      Res.ok ⟨["h", "a,b"], 1, [(1, ["X", "V"])]⟩ ∧
    find_record [(1, ["a", " V "])] 1 = some ["a", " V "] ∧
    (" V " : String) ≠ "V" := by
  refine ⟨?_, ?_, ?_⟩ <;> decide

/-- C3 (amended): an `update_field` on column `col` of a row with a pending
snapshot replaces the snapshot by the `compare_records` merge of the static
record, the old snapshot and the one-column candidate, and for every other
column `j ≠ col` the merged value is the trimmed form of the prior pending
value (hence the prior pending value itself whenever it carries no
surrounding whitespace); in particular the double update of the spec's
example reconciles to `["X", "Y"]`. -/
theorem update_field_frame_trimmed (st : EngineSt) (col row : Nat)
    (value : String) (line_number : Nat)
    (static_record old_record : List String)
    (rest : List (Nat × List String)) (st' : EngineSt)
    (hS : get_record st row = .ok static_record)
    (hO : remove_record st.updated_records row = (some old_record, rest))
    (hup : update_field st col row value line_number = .ok st') :
    st'.updated_records =
      rest ++
        [(row, compare_records static_record old_record (static_record.set col value))] ∧
    (∀ j s o, j ≠ col → static_record.get? j = some s →
      old_record.get? j = some o →
      (compare_records static_record old_record (static_record.set col value)).get? j =
        some (trimStr o)) ∧
    ((update_field ⟨["h", "=f(A1),=f(B1)"], 1, []⟩ 0 1 "X" 2).bind
        (fun st1 => update_field st1 1 1 "Y" 2) =
      Res.ok ⟨["h", "=f(A1),=f(B1)"], 1, [(1, ["X", "Y"])]⟩) := by
  refine ⟨?_, ?_, by decide⟩
  · unfold update_field at hup
    rw [hS] at hup
    simp only [Res.bind] at hup
    by_cases hc : static_record.length ≤ col
    · simp only [if_pos hc] at hup
      cases hup
    · simp only [if_neg hc, hO] at hup
      cases hup
      rfl
  · intro j s o hj hsj hoj
    have hNj : (static_record.set col value).get? j = some s := by
      rw [List.get?_set_ne value static_record (fun h => hj h.symm)]
      exact hsj
    rw [compare_records_get?_of static_record old_record
      (static_record.set col value) j s o s hsj hoj hNj]
    by_cases ho : trimStr o = trimStr s <;> simp [ho]

/-- C3 witness: the amended theorem at a concrete state — static record
`["a", "b"]`, pending snapshot `["a", "p"]`, update of column 0 to `"X"`;
column 1's merged value is `trimStr "p" = "p"`. -/
theorem update_field_frame_trimmed_witness :
    (⟨["h", "a,b"], 1, [(1, ["X", "p"])]⟩ : EngineSt).updated_records =
      [] ++ [(1, compare_records ["a", "b"] ["a", "p"] ((["a", "b"]).set 0 "X"))] ∧
    (∀ j s o, j ≠ 0 → (["a", "b"] : List String).get? j = some s →
      (["a", "p"] : List String).get? j = some o →
      (compare_records ["a", "b"] ["a", "p"] ((["a", "b"]).set 0 "X")).get? j =
        some (trimStr o)) ∧
    ((update_field ⟨["h", "=f(A1),=f(B1)"], 1, []⟩ 0 1 "X" 2).bind
        (fun st1 => update_field st1 1 1 "Y" 2) =
      Res.ok ⟨["h", "=f(A1),=f(B1)"], 1, [(1, ["X", "Y"])]⟩) :=
  update_field_frame_trimmed ⟨["h", "a,b"], 1, [(1, ["a", "p"])]⟩ 0 1 "X" 2
    ["a", "b"] ["a", "p"] [] ⟨["h", "a,b"], 1, [(1, ["X", "p"])]⟩
    (by decide) (by decide) (by decide)

mutual

/-- Helper for the leaf-shape invariant: every element of
`Expression.mut_children` is a resolvable leaf. -/
theorem mut_children_leaf_aux : ∀ (e x : Expression),
    x ∈ Expression.mut_children e → is_resolvable_leaf x = true
  | .functionCall _ args _, x, hx =>
    mut_children_list_leaf_aux args x (by simpa [Expression.mut_children] using hx)
  | .array es, x, hx =>
    mut_children_list_leaf_aux es x (by simpa [Expression.mut_children] using hx)
  | .field c r v, x, hx => by
    simp only [Expression.mut_children, List.mem_singleton] at hx
    subst hx; rfl
  | .number n, x, hx => by
    simp only [Expression.mut_children, List.mem_singleton] at hx
    subst hx; rfl
  | .string s, x, hx => by
    simp only [Expression.mut_children, List.mem_singleton] at hx
    subst hx; rfl
  | .boolean b, x, hx => by
    simp only [Expression.mut_children, List.mem_singleton] at hx
    subst hx; rfl

/-- Helper: every element of `mut_children_list` is a resolvable leaf. -/
theorem mut_children_list_leaf_aux : ∀ (es : List Expression) (x : Expression),
    x ∈ mut_children_list es → is_resolvable_leaf x = true
  | [], x, hx => by simp [mut_children_list] at hx
  | e :: rest, x, hx => by
    simp only [mut_children_list] at hx
    rcases List.mem_append.mp hx with h | h
    · exact mut_children_leaf_aux e x h
    · exact mut_children_list_leaf_aux rest x h

end

/-- C6: the leaf-collection traversal only ever returns `Field`, `Number`,
`String` or `Boolean` nodes — a `FunctionCall` is never emitted (the
traversal recurses into its argument list) and an `Array` is never emitted
(its elements are flattened), both for `Expression.mut_children` and for
`Ast.mut_children`; hence the `FunctionCall` and `Array` branches of the
per-leaf loop in `execute_field` are never taken. -/
theorem mut_children_only_leaves :
    (∀ (e x : Expression),
      x ∈ Expression.mut_children e → is_resolvable_leaf x = true) ∧
    (∀ (a : Ast) (x : Expression),
      x ∈ Ast.mut_children a → is_resolvable_leaf x = true) := by
  constructor
  · exact mut_children_leaf_aux
  · intro a x hx
    exact mut_children_list_leaf_aux a.arguments x (by simpa [Ast.mut_children] using hx)

/-- C6 witness: the theorem applied to the concrete tree
`f(3, g([a1, h(2)]))`, whose leaf list contains the field `a1`. -/
theorem mut_children_only_leaves_witness :
    is_resolvable_leaf (Expression.field "a" 1 "") = true :=
  mut_children_only_leaves.1
    (Expression.functionCall "f"
      [Expression.number ⟨3, 0⟩,
       Expression.functionCall "g"
         [Expression.array
           [Expression.field "a" 1 "",
            Expression.functionCall "h" [Expression.number ⟨2, 0⟩] 1]] 1] 1)
    (Expression.field "a" 1 "")
    (by simp [Expression.mut_children, mut_children_list])

/-- C7: at a field position (an `Identifier` token under peek),
`parse_field` splits the identifier into its leading ASCII-alphabetic run
(the column) and the remaining trailing run, and returns the `Field` with
that column and the trailing run parsed as a `u64` — failing with a Parse
error exactly when the trailing run does not parse as an unsigned integer
(empty, non-digit, or overflowing) or parses to zero.  In particular `a0`
is a Parse error and `a1` is `Field { col: "a", row: 1 }`. -/
theorem parse_field_characterization (identifier : String) (line_number : Nat)
    (rest : List Token) :
    (∀ r,
      u64_from_str? (identifier.data.dropWhile (fun c => isAsciiAlphabetic c)) = some r →
      r ≠ 0 →
      parse_field ⟨Token.identifier identifier :: rest, line_number⟩ =
        Res.ok
          (Expression.field ⟨identifier.data.takeWhile (fun c => isAsciiAlphabetic c)⟩ r "",
            ⟨rest, line_number⟩)) ∧
    ((parse_field ⟨Token.identifier identifier :: rest, line_number⟩).isErr = true ↔
      u64_from_str? (identifier.data.dropWhile (fun c => isAsciiAlphabetic c)) = none ∨
      u64_from_str? (identifier.data.dropWhile (fun c => isAsciiAlphabetic c)) = some 0) ∧
    parse_field ⟨[Token.identifier "a0"], line_number⟩ =
      Res.err ⟨.parse, .fieldRowZero, line_number⟩ ∧
    parse_field ⟨[Token.identifier "a1"], line_number⟩ =
      Res.ok (Expression.field "a" 1 "", ⟨[], line_number⟩) := by
  have hdata : ∀ l : List Char, (⟨l⟩ : String).data = l := fun _ => rfl
  refine ⟨?_, ?_, rfl, rfl⟩
  · intro r hr hr0
    simp only [parse_field, parse_identifier, Res.bind, hdata, hr, if_neg hr0]
  · simp only [parse_field, parse_identifier, Res.bind, hdata]
    cases hr : u64_from_str? (identifier.data.dropWhile (fun c => isAsciiAlphabetic c)) with
    | none => simp [Res.isErr]
    | some r =>
      by_cases hr0 : r = 0
      · subst hr0; simp [Res.isErr]
      · simp [if_neg hr0, Res.isErr, hr0]

/-- C7 witness: the characterization applied to the identifier `"ab12"`
(column `"ab"`, row `12`). -/
theorem parse_field_characterization_witness :
    parse_field ⟨[Token.identifier "ab12"], 4⟩ =
      Res.ok (Expression.field ⟨("ab12".data.takeWhile (fun c => isAsciiAlphabetic c))⟩ 12 "",
        ⟨[], 4⟩) :=
  (parse_field_characterization "ab12" 4 []).1 12 (by decide) (by decide)

/-- Helper: every argument list that is not exactly two `Number`s makes all
four arithmetic builtins return their count/type error. -/
theorem arith_errs : ∀ (args : List Expression),
    (¬ ∃ a b, args = [Expression.number a, Expression.number b]) →
    (sum args).isErr = true ∧ (sub args).isErr = true ∧
    (mul args).isErr = true ∧ (div args).isErr = true
  | [], _ => ⟨rfl, rfl, rfl, rfl⟩
  | [a], _ => by cases a <;> exact ⟨rfl, rfl, rfl, rfl⟩
  | a :: b :: c :: restL, _ => by cases a <;> cases b <;> exact ⟨rfl, rfl, rfl, rfl⟩
  | [Expression.number a, b], h => by
    cases b
    case number b' => exact absurd ⟨a, b', rfl⟩ h
    all_goals exact ⟨rfl, rfl, rfl, rfl⟩
  | [Expression.functionCall n as l, b], _ => by
    cases b <;> exact ⟨rfl, rfl, rfl, rfl⟩
  | [Expression.field c r v, b], _ => by cases b <;> exact ⟨rfl, rfl, rfl, rfl⟩
  | [Expression.string s, b], _ => by cases b <;> exact ⟨rfl, rfl, rfl, rfl⟩
  | [Expression.boolean bl, b], _ => by cases b <;> exact ⟨rfl, rfl, rfl, rfl⟩
  | [Expression.array es, b], _ => by cases b <;> exact ⟨rfl, rfl, rfl, rfl⟩

/-- Helper: `sum` only answers `Ok` on exactly two `Number` arguments. -/
theorem sum_ok_shape : ∀ (args : List Expression) (s : String),
    sum args = .ok s → ∃ a b, args = [Expression.number a, Expression.number b]
  | [], _, h => nomatch h
  | [a], _, h => by cases a <;> exact nomatch h
  | a :: b :: c :: restL, _, h => by cases a <;> cases b <;> exact nomatch h
  | [Expression.number a, b], _, h => by
    cases b
    case number b' => exact ⟨a, b', rfl⟩
    all_goals exact nomatch h
  | [Expression.functionCall n as l, b], _, h => by cases b <;> exact nomatch h
  | [Expression.field c r v, b], _, h => by cases b <;> exact nomatch h
  | [Expression.string s, b], _, h => by cases b <;> exact nomatch h
  | [Expression.boolean bl, b], _, h => by cases b <;> exact nomatch h
  | [Expression.array es, b], _, h => by cases b <;> exact nomatch h

/-- Helper: `sub` only answers `Ok` on exactly two `Number` arguments. -/
theorem sub_ok_shape : ∀ (args : List Expression) (s : String),
    sub args = .ok s → ∃ a b, args = [Expression.number a, Expression.number b]
  | [], _, h => nomatch h
  | [a], _, h => by cases a <;> exact nomatch h
  | a :: b :: c :: restL, _, h => by cases a <;> cases b <;> exact nomatch h
  | [Expression.number a, b], _, h => by
    cases b
    case number b' => exact ⟨a, b', rfl⟩
    all_goals exact nomatch h
  | [Expression.functionCall n as l, b], _, h => by cases b <;> exact nomatch h
  | [Expression.field c r v, b], _, h => by cases b <;> exact nomatch h
  | [Expression.string s, b], _, h => by cases b <;> exact nomatch h
  | [Expression.boolean bl, b], _, h => by cases b <;> exact nomatch h
  | [Expression.array es, b], _, h => by cases b <;> exact nomatch h

/-- Helper: `mul` only answers `Ok` on exactly two `Number` arguments. -/
theorem mul_ok_shape : ∀ (args : List Expression) (s : String),
    mul args = .ok s → ∃ a b, args = [Expression.number a, Expression.number b]
  | [], _, h => nomatch h
  | [a], _, h => by cases a <;> exact nomatch h
  | a :: b :: c :: restL, _, h => by cases a <;> cases b <;> exact nomatch h
  | [Expression.number a, b], _, h => by
    cases b
    case number b' => exact ⟨a, b', rfl⟩
    all_goals exact nomatch h
  | [Expression.functionCall n as l, b], _, h => by cases b <;> exact nomatch h
  | [Expression.field c r v, b], _, h => by cases b <;> exact nomatch h
  | [Expression.string s, b], _, h => by cases b <;> exact nomatch h
  | [Expression.boolean bl, b], _, h => by cases b <;> exact nomatch h
  | [Expression.array es, b], _, h => by cases b <;> exact nomatch h

/-- Helper: `div` only answers `Ok` on exactly two `Number` arguments with a
nonzero divisor (a zero divisor panics instead). -/
theorem div_ok_shape : ∀ (args : List Expression) (s : String),
    div args = .ok s →
    ∃ a b, args = [Expression.number a, Expression.number b] ∧ b.mant ≠ 0
  | [], _, h => nomatch h
  | [a], _, h => by cases a <;> exact nomatch h
  | a :: b :: c :: restL, _, h => by cases a <;> cases b <;> exact nomatch h
  | [Expression.number a, b], s, h => by
    cases b
    case number b' =>
      by_cases hb : b'.mant = 0
      · simp [div, hb] at h
      · exact ⟨a, b', rfl, hb⟩
    all_goals exact nomatch h
  | [Expression.functionCall n as l, b], _, h => by cases b <;> exact nomatch h
  | [Expression.field c r v, b], _, h => by cases b <;> exact nomatch h
  | [Expression.string s, b], _, h => by cases b <;> exact nomatch h
  | [Expression.boolean bl, b], _, h => by cases b <;> exact nomatch h
  | [Expression.array es, b], _, h => by cases b <;> exact nomatch h

/-- C8 counterexample: `div` applied to exactly two `Number` arguments with
a zero divisor does not return `Ok` — it panics (`bigdecimal`'s division by
zero), so the claimed "Ok when and only when applied to exactly two Number
arguments" fails in the "when" direction. -/
theorem div_zero_two_numbers_not_ok :
    div [Expression.number ⟨1, 0⟩, Expression.number ⟨0, 0⟩] = BRes.panic ∧
    (div [Expression.number ⟨1, 0⟩, Expression.number ⟨0, 0⟩]).isOk = false :=
  ⟨rfl, rfl⟩

/-- C8 (amended): `sum`, `sub` and `mul` return `Ok` of the exact-decimal
result rendered as text when and only when applied to exactly two `Number`
arguments; `div` does so when and only when additionally the divisor is
nonzero (a zero divisor panics rather than returning a result); every other
argument list (wrong count, or any non-`Number` argument) is an error.  In
particular `sum [Number 2, Number 3] = Ok "5"`, while `sum` with one
argument or with a `String` argument fails. -/
theorem builtins_two_number_contract :
    (∀ a b, sum [Expression.number a, Expression.number b] =
      .ok (bdToString (bdAdd a b))) ∧
    (∀ a b, sub [Expression.number a, Expression.number b] =
      .ok (bdToString (bdSub a b))) ∧
    (∀ a b, mul [Expression.number a, Expression.number b] =
      .ok (bdToString (bdMul a b))) ∧
    (∀ a b, b.mant ≠ 0 → div [Expression.number a, Expression.number b] =
      .ok (bdToString (bdDiv a b))) ∧
    (∀ args, (¬ ∃ a b, args = [Expression.number a, Expression.number b]) →
      (sum args).isErr = true ∧ (sub args).isErr = true ∧
      (mul args).isErr = true ∧ (div args).isErr = true) ∧
    (∀ args s, sum args = .ok s →
      ∃ a b, args = [Expression.number a, Expression.number b]) ∧
    (∀ args s, sub args = .ok s →
      ∃ a b, args = [Expression.number a, Expression.number b]) ∧
    (∀ args s, mul args = .ok s →
      ∃ a b, args = [Expression.number a, Expression.number b]) ∧
    (∀ args s, div args = .ok s →
      ∃ a b, args = [Expression.number a, Expression.number b] ∧ b.mant ≠ 0) ∧
    sum [Expression.number ⟨2, 0⟩, Expression.number ⟨3, 0⟩] = .ok "5" ∧
    (sum [Expression.number ⟨2, 0⟩]).isErr = true ∧
    (sum [Expression.number ⟨2, 0⟩, Expression.string "x"]).isErr = true := by
  refine ⟨fun a b => rfl, fun a b => rfl, fun a b => rfl, ?_, arith_errs,
    sum_ok_shape, sub_ok_shape, mul_ok_shape, div_ok_shape, ?_, rfl, rfl⟩
  · intro a b hb
    simp [div, hb]
  · decide

/-- C8 witness: the amended contract at concrete inputs — `div` on the two
numbers `1` and `2` (nonzero divisor discharged). -/
theorem builtins_two_number_contract_witness :
    div [Expression.number ⟨1, 0⟩, Expression.number ⟨2, 0⟩] =
      .ok (bdToString (bdDiv ⟨1, 0⟩ ⟨2, 0⟩)) :=
  builtins_two_number_contract.2.2.2.1 ⟨1, 0⟩ ⟨2, 0⟩ (by decide)

/-- C9: a cell text that does not start with `'='` is returned by
`execute_field` verbatim as `Ok`, for every engine state, fuel and line
number — no tokenizing, parsing or error is possible on that branch. -/
theorem execute_field_passthrough (fuel : Nat) (st : EngineSt) (field : String)
    (line_number : Nat) (h : starts_with_eq field = false) :
    execute_field fuel st field line_number = Res.ok field := by
  unfold execute_field
  simp [h]

/-- C9 witness: the passthrough at the concrete cell `"hello"`. -/
theorem execute_field_passthrough_witness :
    execute_field 0 ⟨[], 0, []⟩ "hello" 1 = Res.ok "hello" :=
  execute_field_passthrough 0 ⟨[], 0, []⟩ "hello" 1 (by decide)

/-- C10: `div` has no guard for a zero divisor — its error results arise
exactly from argument lists that are not two `Number`s (wrong count or a
non-`Number` argument); two `Number` arguments with nonzero divisor give
`Ok` of the rendered quotient, and a zero divisor gives a panic, never an
error result. -/
theorem div_no_zero_guard :
    (∀ args, (div args).isErr = true ↔
      ¬ ∃ a b, args = [Expression.number a, Expression.number b]) ∧
    (∀ a b, b.mant ≠ 0 → div [Expression.number a, Expression.number b] =
      .ok (bdToString (bdDiv a b))) ∧
    (∀ a b, b.mant = 0 → div [Expression.number a, Expression.number b] =
      BRes.panic) := by
  refine ⟨?_, ?_, ?_⟩
  · intro args
    constructor
    · intro hErr hshape
      rcases hshape with ⟨a, b, rfl⟩
      by_cases hb : b.mant = 0 <;> simp [div, hb, BRes.isErr] at hErr
    · intro hshape
      exact (arith_errs args hshape).2.2.2
  · intro a b hb
    simp [div, hb]
  · intro a b hb
    simp [div, hb]

/-- C10 witness: the zero-divisor branch at concrete numbers `5` and `0`
(scale 2), which is a panic and hence not an error result. -/
theorem div_no_zero_guard_witness :
    div [Expression.number ⟨5, 0⟩, Expression.number ⟨0, 2⟩] = BRes.panic :=
  div_no_zero_guard.2.2 ⟨5, 0⟩ ⟨0, 2⟩ (by decide)

end Minicel
